import Mathlib

/-!
Verification development for the Meckano Helper browser extension.

The repository automates a timesheet dialog on a host web page: it opens the
dialog, polls until the dialog content is structurally ready, classifies each
calendar row as working or skipped, fills only empty time inputs, and submits.

This file gives a shallow embedding of the content-script logic:
* pure string helpers mirror the JavaScript string operations used
  (String.prototype.includes, split, trim, padStart, Number on digit strings);
* the DOM fragment the scripts query is modelled as explicit structures
  (Doc, Dialog, AttendanceView, HoursReport, Row), where an Option field
  models presence or absence of the corresponding element;
* randomness (Math.random scaled to an integer in [0, 40]) is passed in as an
  explicit argument; asynchronous sleeping is modelled by accounting the
  requested milliseconds; retry loops become fuel-based recursion where the
  fuel is the maxRetries bound of the source loop.

Two variants of the form-filling code exist in the repository: the modular
FormManager (src/content) and a legacy monolithic content script.  Both are
embedded; the legacy variant differs in the already-complete branch, which
increments an undeclared variable (a ReferenceError caught by the row-level
catch), so that branch is modelled as producing an error outcome.
-/

namespace Meckano

/-! ## String helpers mirroring the JavaScript operations -/

/-- JavaScript `s.includes(pat)`: `pat` occurs contiguously inside `s`
(the empty pattern always occurs). -/
def strIncludes (s pat : String) : Bool :=
  decide (pat.data <:+: s.data)

/-- JavaScript `String.prototype.split` with a single-character separator,
over the character list. -/
def splitCharAux (sep : Char) : List Char → List Char → List (List Char)
  | [], acc => [acc.reverse]
  | c :: cs, acc =>
      if c = sep then acc.reverse :: splitCharAux sep cs []
      else splitCharAux sep cs (c :: acc)

/-- JavaScript `s.split(sep)` for a one-character separator. -/
def jsSplit (s : String) (sep : Char) : List String :=
  (splitCharAux sep s.data []).map fun l => ⟨l⟩

/-- JavaScript `s.trim()`: strip whitespace from both ends. -/
def jsTrim (s : String) : String :=
  ⟨((s.data.dropWhile Char.isWhitespace).reverse.dropWhile Char.isWhitespace).reverse⟩

/-- JavaScript `Number(s)` restricted to non-empty all-digit strings, the only
inputs the scripts feed it from well-formed `HH:MM` times; any other input
(which would produce `NaN` in the source) is `none`. -/
def digitsToNat (cs : List Char) : Option Nat :=
  match cs with
  | [] => none
  | _ =>
      if cs.all Char.isDigit then
        some (cs.foldl (fun n c => n * 10 + (c.toNat - '0'.toNat)) 0)
      else none

/-- The `const [hours, minutes] = timeString.split(':').map(Number)` idiom:
take the first two components of the split, parsed as numbers. -/
def parseHM (s : String) : Option (Nat × Nat) :=
  match jsSplit s ':' with
  | h :: m :: _ =>
      match digitsToNat h.data, digitsToNat m.data with
      | some hs, some ms => some (hs, ms)
      | _, _ => none
  | _ => none

/-- JavaScript `String(n).padStart(2, '0')`. -/
def padStart2 (s : String) : String :=
  if s.length == 0 then "00"
  else if s.length == 1 then "0" ++ s
  else s

/-! ## Time data (constantDataProvider.js and utils.js) -/

/-- A `(checkin, checkout)` pair as returned by a data provider. -/
structure TimeData where
  checkin : String
  checkout : String
deriving DecidableEq

/-- Format a total-minute count (already clamped into `[0, 1439]`) as the
source does: zero-padded hours and minutes joined by a colon. -/
def formatHM (total : Nat) : String :=
  padStart2 (toString (total / 60)) ++ ":" ++ padStart2 (toString (total % 60))

/-- Model of `ConstantDataProvider.addRandomVariation`: parse `HH:MM`, add the random
variation `rand - 20` minutes (the caller draws `rand = floor(random()*41)`,
an integer in `[0, 40]`), clamp into `[0, 1439]` total minutes, re-format.
`none` models the `NaN` outcome on an unparsable time string. -/
def addRandomVariation (timeString : String) (rand : Nat) : Option String :=
  match parseHM timeString with
  | none => none
  | some (hours, minutes) =>
      let totalMinutes : Int := hours * 60 + minutes
      let variation : Int := (rand : Int) - 20
      let newTotalMinutes : Int := max 0 (min 1439 (totalMinutes + variation))
      some (formatHM newTotalMinutes.toNat)

/-- Configuration of `ConstantDataProvider`: the two base times and the
humanize flag. -/
structure ConstantDataProvider where
  checkinTime : String
  checkoutTime : String
  humanize : Bool
deriving DecidableEq

/-- Model of `ConstantDataProvider.getTimeData`: constant times, or, when humanizing,
each endpoint independently perturbed by `addRandomVariation` applied to the
originally configured time.  The two random draws of the call are passed
explicitly. -/
def ConstantDataProvider.getTimeData (p : ConstantDataProvider)
    (randIn randOut : Nat) : Option TimeData :=
  if !p.humanize then
    some ⟨p.checkinTime, p.checkoutTime⟩
  else
    match addRandomVariation p.checkinTime randIn,
          addRandomVariation p.checkoutTime randOut with
    | some ci, some co => some ⟨ci, co⟩
    | _, _ => none

/-- Model of `utils.humanizeTime`: like `addRandomVariation` but with NO clamping.
`Math.floor(n / 60)` on a possibly negative total is floor division
(`Int.fdiv`) and the JavaScript `%` operator is the truncated remainder
(`Int.tmod`), both encoded via `String(n)` and `padStart(2, '0')`. -/
def humanizeTime (baseTime : String) (rand : Nat) : Option String :=
  match parseHM baseTime with
  | none => none
  | some (hours, minutes) =>
      let totalMinutes : Int := hours * 60 + minutes
      let newTotalMinutes : Int := totalMinutes + ((rand : Int) - 20)
      some (padStart2 (toString (Int.fdiv newTotalMinutes 60)) ++ ":" ++
            padStart2 (toString (Int.tmod newTotalMinutes 60)))

/-- Hour component of `utils.isValidTimeFormat`: the regex alternative
`[0-1]?[0-9]|2[0-3]`. -/
def isHourComponent (h : String) : Bool :=
  match h.data with
  | [c] => c.isDigit
  | [c1, c2] =>
      ((c1 == '0' || c1 == '1') && c2.isDigit) ||
      (c1 == '2' && c2.isDigit && decide (c2 ≤ '3'))
  | _ => false

/-- Minute component of `utils.isValidTimeFormat`: the regex `[0-5][0-9]`. -/
def isMinuteComponent (m : String) : Bool :=
  match m.data with
  | [c1, c2] => c1.isDigit && decide (c1 ≤ '5') && c2.isDigit
  | _ => false

/-- Model of `utils.isValidTimeFormat`: the anchored regex
`^([0-1]?[0-9]|2[0-3]):[0-5][0-9]$`. -/
def isValidTimeFormat (s : String) : Bool :=
  match jsSplit s ':' with
  | [h, m] => isHourComponent h && isMinuteComponent m
  | _ => false

/-! ## The queried fragment of the host document

The scripts observe the host page only through a fixed set of selector
queries; the model records exactly the queried data.  An `Option` field is
`none` when the corresponding element is absent from the document.  Per the
page shape (spec section 6) the `.hours-report` table lives inside the
`.attendance-view` sub-view of the `#freeReporting-dialog` container, so
the hours-report query from the dialog is modelled as descending through the
attendance view. -/

/-- Parsed date information, the value `FormManager.parseDateRow` builds from
a row: the `DD/MM/YYYY` date string, the single Hebrew weekday letter, the
trimmed special-day annotation text (empty when the `.specialDayDescription`
span is absent), and the value of the `select.select-box` absence control
(`"0"` when the control or its cell is absent). -/
structure DateInfo where
  date : String
  hebrewDay : String
  specialText : String
  missingEventValue : String
deriving DecidableEq

/-- One data row (`tr:not(:first-child)`) of the hours-report table.
`dateInfo` is the result of `parseDateRow` on the row: `none` models every
failure path of that helper (missing `td.date` cell, missing `.dateText`
span, or date text not matching the date regex).  The two input fields are
`none` when the `input.checkIn` / `input.checkOut` element is absent and
otherwise carry the current value of the input. -/
structure Row where
  dateInfo : Option DateInfo
  checkinInput : Option String
  checkoutInput : Option String
deriving DecidableEq

/-- The `.hours-report` table: its data rows (the header row is excluded by
the `tr:not(:first-child)` selector and holds no inputs). -/
structure HoursReport where
  dataRows : List Row
deriving DecidableEq

/-- The `.attendance-view` sub-view: its two display properties (inline style
and computed style) and the hours-report table when present. -/
structure AttendanceView where
  styleDisplayNone : Bool
  computedDisplayNone : Bool
  hoursReport : Option HoursReport
deriving DecidableEq

/-- The submit control `.save.button-refresh-data.update-freeReporting`. -/
structure SubmitButton where
  disabled : Bool
deriving DecidableEq

/-- The `#freeReporting-dialog` container: whether its inline style is
`display: block`, whether its computed display is `none`, and its queried
children. -/
structure Dialog where
  styleDisplayBlock : Bool
  computedDisplayNone : Bool
  attendanceView : Option AttendanceView
  submitButton : Option SubmitButton
deriving DecidableEq

/-- The host document: presence of the trigger anchor
`a.export.free-reporting.popup-container` and the dialog container. -/
structure Doc where
  trigger : Bool
  dialog : Option Dialog
deriving DecidableEq

/-- The hours-report table as queried from the dialog container. -/
def Dialog.queryHoursReport (d : Dialog) : Option HoursReport :=
  d.attendanceView.bind fun av => av.hoursReport

/-! ## FormManager (modular variant, src/content/formManager.js) -/

/-- Model of `FormManager.isInputFilled`: the input element exists and its value is
non-empty after trimming. -/
def isInputFilled : Option String → Bool
  | none => false
  | some v => !(jsTrim v == "")

/-- Model of `FormManager.isRowComplete`: both checkin and checkout inputs filled. -/
def isRowComplete (row : Row) : Bool :=
  isInputFilled row.checkinInput && isInputFilled row.checkoutInput

/-- The absence-rule lookup `skipRules[dateInfo.missingEventValue]` followed
by the `if (skipReason)` truthiness test: a configured empty-string reason is
falsy and does not skip.  The rule map itself comes from `config.json`
(`MISSING_EVENT_SKIP_RULES`), which is configuration data, so it stays a
parameter. -/
def lookupRule (rules : List (String × String)) (v : String) : Option String :=
  match rules.lookup v with
  | some r => if r == "" then none else some r
  | none => none

/-- Model of `FormManager.shouldSkipDate` (modular variant): weekend letters first,
then holiday (annotation contains the holiday token but not the eve token),
then holiday eve (annotation contains the eve token), then the configured
absence rules; `none` means a working day.  The returned string is the
`skipReason` the source stores on the date info. -/
def shouldSkipDate (rules : List (String × String)) (d : DateInfo) :
    Option String :=
  if d.hebrewDay == "ו" || d.hebrewDay == "ש" then
    some ("Weekend (" ++ (if d.hebrewDay == "ו" then "Friday" else "Saturday") ++ ")")
  else if strIncludes d.specialText "חג" && !(strIncludes d.specialText "ערב") then
    some "Holiday"
  else if strIncludes d.specialText "ערב חג" then
    some "Holiday Eve"
  else
    lookupRule rules d.missingEventValue

/-- Model of `FormManager.fillRowInputs`: fails (leaving the row untouched) when either
input element is missing; otherwise writes the provided time into each input
whose current value is empty after trimming, leaving filled inputs unchanged,
and succeeds. -/
def fillRowInputs (row : Row) (td : TimeData) : Row × Bool :=
  match row.checkinInput, row.checkoutInput with
  | some ci, some co =>
      let newCi := if isInputFilled (some ci) then ci else td.checkin
      let newCo := if isInputFilled (some co) then co else td.checkout
      ({ row with checkinInput := some newCi, checkoutInput := some newCo }, true)
  | _, _ => (row, false)

/-- Per-row outcome: which of the three counters of `fillTimeInputs` the row
increments. -/
inductive RowOutcome where
  | filled
  | skipped
  | errored
deriving DecidableEq

/-- Per-pass counters, the `details` object of a successful
`fillTimeInputs`. -/
structure FillDetails where
  filled : Nat
  skipped : Nat
  errors : Nat
deriving DecidableEq

/-- Increment the counter selected by an outcome. -/
def FillDetails.add (d : FillDetails) : RowOutcome → FillDetails
  | .filled => { d with filled := d.filled + 1 }
  | .skipped => { d with skipped := d.skipped + 1 }
  | .errored => { d with errors := d.errors + 1 }

/-- One iteration of the `fillTimeInputs` row loop (modular variant): parse
failure counts skipped; a skip classification counts skipped; an already
complete row counts skipped; a declined data request counts errored; otherwise
the row is filled via `fillRowInputs`, whose failure counts errored.  The
returned row is the possibly rewritten row. -/
def processRow (rules : List (String × String))
    (dp : String → Option TimeData) (row : Row) : Row × RowOutcome :=
  match row.dateInfo with
  | none => (row, .skipped)
  | some info =>
      if (shouldSkipDate rules info).isSome then (row, .skipped)
      else if isRowComplete row then (row, .skipped)
      else
        match dp info.date with
        | none => (row, .errored)
        | some td =>
            let fr := fillRowInputs row td
            (fr.1, if fr.2 then .filled else .errored)

/-- The row loop of `fillTimeInputs`: every row is processed, counters are
aggregated, and the rewritten rows are returned in order. -/
def fillRows (rules : List (String × String))
    (dp : String → Option TimeData) : List Row → List Row × FillDetails
  | [] => ([], ⟨0, 0, 0⟩)
  | r :: rs =>
      let p := processRow rules dp r
      let rest := fillRows rules dp rs
      (p.1 :: rest.1, rest.2.add p.2)

/-- Result object of `fillTimeInputs`: `success` with the aggregated counter
details, or a structural failure with an error message. -/
structure FillResult where
  success : Bool
  error : Option String
  details : Option FillDetails
deriving DecidableEq

/-- Model of `FormManager.fillTimeInputs`: fails when the dialog container is absent or
the hours-report table is not found inside it; otherwise runs the row loop
over all data rows and returns success with the three counters, writing the
rewritten rows back into the document. -/
def fillTimeInputs (rules : List (String × String))
    (dp : String → Option TimeData) (doc : Doc) : Doc × FillResult :=
  match doc.dialog with
  | none => (doc, ⟨false, some "Dialog not found", none⟩)
  | some dlg =>
      match dlg.attendanceView with
      | none => (doc, ⟨false, some "Time table not found in dialog", none⟩)
      | some av =>
          match av.hoursReport with
          | none => (doc, ⟨false, some "Time table not found in dialog", none⟩)
          | some hr =>
              let res := fillRows rules dp hr.dataRows
              ({ doc with
                  dialog := some { dlg with
                    attendanceView := some { av with
                      hoursReport := some { hr with dataRows := res.1 } } } },
               ⟨true, none, some res.2⟩)

/-! ## Row classification outcomes -/

/-- The five possible classification outcomes of a parsed row: the weekend
day name, holiday, holiday eve, a configured absence reason, or a working
day. -/
inductive RowClass where
  | weekend : String → RowClass
  | holiday
  | holidayEve
  | absence : String → RowClass
  | work
deriving DecidableEq

/-- The skip reason string each outcome stores on the date info (`none` for a
working day), matching the strings of `shouldSkipDate`. -/
def RowClass.reason : RowClass → Option String
  | .weekend day => some ("Weekend (" ++ day ++ ")")
  | .holiday => some "Holiday"
  | .holidayEve => some "Holiday Eve"
  | .absence r => some r
  | .work => none

/-- Classification as performed by `shouldSkipDate` plus the working-day
default, with the branch structure of the source. -/
def classify (rules : List (String × String)) (d : DateInfo) : RowClass :=
  if d.hebrewDay == "ו" || d.hebrewDay == "ש" then
    .weekend (if d.hebrewDay == "ו" then "Friday" else "Saturday")
  else if strIncludes d.specialText "חג" && !(strIncludes d.specialText "ערב") then
    .holiday
  else if strIncludes d.specialText "ערב חג" then
    .holidayEve
  else
    match lookupRule rules d.missingEventValue with
    | some r => .absence r
    | none => .work

/-- Generic first-match evaluation of an ordered rule list. -/
def firstMatch {α β : Type} : List (α → Option β) → α → Option β
  | [], _ => none
  | f :: fs, a =>
      match f a with
      | some b => some b
      | none => firstMatch fs a

/-- The ordered rule list of spec section 4.2: weekend, holiday, holiday eve,
configured absence code, in that fixed order.  This definition follows the
SPEC wording (for the refinement conjunct of claim C3); `classify` above
follows the source. -/
def specRuleList (rules : List (String × String)) :
    List (DateInfo → Option RowClass) :=
  [fun d =>
      if d.hebrewDay == "ו" then some (.weekend "Friday")
      else if d.hebrewDay == "ש" then some (.weekend "Saturday")
      else none,
   fun d =>
      if strIncludes d.specialText "חג" && !(strIncludes d.specialText "ערב") then
        some .holiday
      else none,
   fun d =>
      if strIncludes d.specialText "ערב חג" then some .holidayEve else none,
   fun d => (lookupRule rules d.missingEventValue).map RowClass.absence]

/-- Spec-side classifier: first matching rule wins, default Work. -/
def classifySpec (rules : List (String × String)) (d : DateInfo) : RowClass :=
  (firstMatch (specRuleList rules) d).getD .work

/-! ## Legacy monolithic content script

The repository also carries a legacy monolithic content script with its own
`FormManager`.  Its `parseDateRow` has no absence-control handling and its
`shouldSkipDate` has no absence rule.  Crucially, its already-complete branch
executes an increment of the undeclared variable `alreadyFilledCount`; reading
an undeclared variable throws a `ReferenceError`, which the row-level `catch`
absorbs as `errorCount++`, so the already-complete branch is modelled as an
error outcome with the row untouched. -/

namespace Legacy

/-- Legacy parsed date info (no absence-control field). -/
structure DateInfo where
  date : String
  hebrewDay : String
  specialText : String
deriving DecidableEq

/-- Legacy data row, as in the modular variant. -/
structure Row where
  dateInfo : Option DateInfo
  checkinInput : Option String
  checkoutInput : Option String
deriving DecidableEq

/-- Legacy `shouldSkipDate`: weekend, holiday, holiday eve; no absence
rules. -/
def shouldSkipDate (d : DateInfo) : Option String :=
  if d.hebrewDay == "ו" || d.hebrewDay == "ש" then
    some ("Weekend (" ++ (if d.hebrewDay == "ו" then "Friday" else "Saturday") ++ ")")
  else if strIncludes d.specialText "חג" && !(strIncludes d.specialText "ערב") then
    some "Holiday"
  else if strIncludes d.specialText "ערב חג" then
    some "Holiday Eve"
  else
    none

/-- Legacy `isRowComplete`. -/
def isRowComplete (row : Row) : Bool :=
  isInputFilled row.checkinInput && isInputFilled row.checkoutInput

/-- Legacy `fillRowInputs`, identical to the modular one. -/
def fillRowInputs (row : Row) (td : TimeData) : Row × Bool :=
  match row.checkinInput, row.checkoutInput with
  | some ci, some co =>
      let newCi := if isInputFilled (some ci) then ci else td.checkin
      let newCo := if isInputFilled (some co) then co else td.checkout
      ({ row with checkinInput := some newCi, checkoutInput := some newCo }, true)
  | _, _ => (row, false)

/-- One iteration of the legacy row loop.  The already-complete branch
increments the undeclared `alreadyFilledCount`: the resulting thrown
`ReferenceError` is caught by the row-level catch and counted as an error,
with the row left untouched. -/
def processRow (dp : String → Option TimeData) (row : Row) : Row × RowOutcome :=
  match row.dateInfo with
  | none => (row, .skipped)
  | some info =>
      if (shouldSkipDate info).isSome then (row, .skipped)
      else if isRowComplete row then (row, .errored)
      else
        match dp info.date with
        | none => (row, .errored)
        | some td =>
            let fr := fillRowInputs row td
            (fr.1, if fr.2 then .filled else .errored)

/-- The legacy row loop with counter aggregation. -/
def fillRows (dp : String → Option TimeData) : List Row → List Row × FillDetails
  | [] => ([], ⟨0, 0, 0⟩)
  | r :: rs =>
      let p := processRow dp r
      let rest := fillRows dp rs
      (p.1 :: rest.1, rest.2.add p.2)

end Legacy

/-! ## DialogManager: opening and readiness polling -/

/-- Result of `DialogManager.openDialog`, extended with whether the trigger
element was clicked (a side effect on the host document). -/
structure OpenOutcome where
  success : Bool
  error : Option String
  clickedTrigger : Bool
deriving DecidableEq

/-- Model of `DialogManager.openDialog`: looks ONLY for the trigger anchor
`a.export.free-reporting.popup-container`; when present it is clicked and the
call succeeds, when absent the call fails without touching the document.  The
dialog container itself is never consulted here. -/
def openDialog (doc : Doc) : OpenOutcome :=
  if doc.trigger then ⟨true, none, true⟩
  else ⟨false, some "Dialog trigger element not found", false⟩

/-- Visibility of the dialog container per `isDialogOpen` and
`waitForDialogClose`: inline `display: block`, or computed display not
`none`. -/
def Dialog.isVisibleOpen (d : Dialog) : Bool :=
  d.styleDisplayBlock || !d.computedDisplayNone

/-- Model of `DialogManager.isDialogOpen`: container present and visible. -/
def isDialogOpen (doc : Doc) : Bool :=
  match doc.dialog with
  | none => false
  | some d => d.isVisibleOpen

/-- Visibility of the attendance view per `waitForDialog`: inline display not
`none` and computed display not `none`. -/
def AttendanceView.isVisible (av : AttendanceView) : Bool :=
  !av.styleDisplayNone && !av.computedDisplayNone

/-- Number of `input.checkIn, input.checkOut` elements found in the table
(the header row holds none). -/
def Row.inputCount (r : Row) : Nat :=
  (if r.checkinInput.isSome then 1 else 0) +
  (if r.checkoutInput.isSome then 1 else 0)

/-- Total time inputs in the hours-report table. -/
def HoursReport.timeInputCount (hr : HoursReport) : Nat :=
  (hr.dataRows.map Row.inputCount).sum

/-- One polling attempt of `waitForDialog`: the ordered readiness checks
(dialog open and visible, attendance view present, attendance view visible,
hours-report table present, at least one time input, submit button present);
the first failing check ends the attempt. -/
def dialogReady (doc : Doc) : Bool :=
  match doc.dialog with
  | none => false
  | some dlg =>
      if !dlg.isVisibleOpen then false
      else
        match dlg.attendanceView with
        | none => false
        | some av =>
            if !av.isVisible then false
            else
              match av.hoursReport with
              | none => false
              | some hr =>
                  if hr.timeInputCount == 0 then false
                  else dlg.submitButton.isSome

/-- Result of `waitForDialog`: whether the dialog became ready, the number of
polling attempts performed, and the total milliseconds spent sleeping. -/
structure WaitOutcome where
  success : Bool
  attempts : Nat
  sleptMs : Nat
deriving DecidableEq

/-- The `waitForDialog` retry loop, fuel-based: `fuel` is the number of
attempts still allowed, `attempt` the 1-based index of the next attempt.  The
host document may change between attempts, so the document observed at each
attempt is given by the stream `docAt`.  A failing attempt sleeps `delayMs`
before the next (the source sleeps inside each failing check, so the final
failing attempt also sleeps). -/
def waitForDialogGo (docAt : Nat → Doc) (delayMs : Nat) :
    Nat → Nat → Nat → WaitOutcome
  | 0, attempt, slept => ⟨false, attempt - 1, slept⟩
  | fuel + 1, attempt, slept =>
      if dialogReady (docAt attempt) then ⟨true, attempt, slept⟩
      else waitForDialogGo docAt delayMs fuel (attempt + 1) (slept + delayMs)

/-- Model of `DialogManager.waitForDialog`: up to `maxRetries` attempts starting at
attempt 1 with no sleep yet. -/
def waitForDialog (docAt : Nat → Doc) (maxRetries delayMs : Nat) : WaitOutcome :=
  waitForDialogGo docAt delayMs maxRetries 1 0

/-! ## FormManager: submission -/

/-- The dialog counts as closed for `waitForDialogClose` when the container is
gone from the document or no longer visible. -/
def dialogClosed (doc : Doc) : Bool :=
  match doc.dialog with
  | none => true
  | some d => !d.isVisibleOpen

/-- The `waitForDialogClose` retry loop, fuel-based like `waitForDialogGo`:
returns whether closure was observed within the allowed attempts. -/
def waitForDialogCloseGo (docAt : Nat → Doc) : Nat → Nat → Bool
  | 0, _ => false
  | fuel + 1, attempt =>
      if dialogClosed (docAt attempt) then true
      else waitForDialogCloseGo docAt fuel (attempt + 1)

/-- Model of `FormManager.waitForDialogClose` with `maxRetries` attempts. -/
def waitForDialogClose (docAt : Nat → Doc) (maxRetries : Nat) : Bool :=
  waitForDialogCloseGo docAt maxRetries 1

/-- Result of `submitForm`, extended with whether the submit control was
clicked. -/
structure SubmitOutcome where
  success : Bool
  error : Option String
  warning : Option String
  clickedSubmit : Bool
deriving DecidableEq

/-- Model of `FormManager.submitForm`: structural failures (dialog or submit button
absent) and the disabled-button failure return without clicking; otherwise
the button is clicked and closure is awaited — a dialog that never closes
still yields success, with a warning. -/
def submitForm (doc : Doc) (docAt : Nat → Doc) (maxRetries : Nat) :
    SubmitOutcome :=
  match doc.dialog with
  | none => ⟨false, some "Dialog not found for submission", none, false⟩
  | some dlg =>
      match dlg.submitButton with
      | none => ⟨false, some "Submit button not found", none, false⟩
      | some btn =>
          if btn.disabled then
            ⟨false, some "Submit button is disabled", none, false⟩
          else if waitForDialogClose docAt maxRetries then
            ⟨true, none, none, true⟩
          else
            ⟨true, none, some "Dialog did not close automatically", true⟩

/-! ## Orchestrator steps 2 and 3 of `fillWorkingHours` -/

/-- Steps 2 and 3 of `MeckanoFormFiller.fillWorkingHours`: open the dialog
and, only if opening succeeded, poll for readiness.  Returns the stage success
flag, whether the trigger was clicked, and how many polling attempts were
performed. -/
def openAndWait (doc : Doc) (docAt : Nat → Doc) (maxRetries delayMs : Nat) :
    Bool × Bool × Nat :=
  let o := openDialog doc
  if !o.success then (false, o.clickedTrigger, 0)
  else
    let w := waitForDialog docAt maxRetries delayMs
    (w.success, o.clickedTrigger, w.attempts)

/-! ## Concrete instances used in witnesses and counterexamples -/

/-- The data-provider contract of the spec (section 3, TimeOfDay invariant):
provided values are renderable times, in particular non-empty after trimming.
`ConstantDataProvider` always satisfies this for well-formed configured
times. -/
def providesNonEmpty (dp : String → Option TimeData) : Prop :=
  ∀ d td, dp d = some td →
    isInputFilled (some td.checkin) = true ∧ isInputFilled (some td.checkout) = true

/-- A constant data source: 09:00 to 18:00 for every date. -/
def constProvider : String → Option TimeData := fun _ => some ⟨"09:00", "18:00"⟩

/-- A legacy row for a plain Monday that is already complete. -/
def legacyCompleteRow : Legacy.Row :=
  ⟨some ⟨"25/08/2025", "ב", ""⟩, some "09:00", some "18:00"⟩

/-- A modular-variant row for a plain Monday that is already complete. -/
def modernCompleteRow : Row :=
  ⟨some ⟨"25/08/2025", "ב", "", "0"⟩, some "09:00", some "18:00"⟩

/-- A modular-variant row for a plain Tuesday with both inputs empty. -/
def modernEmptyRow : Row :=
  ⟨some ⟨"26/08/2025", "ב", "", "0"⟩, some "", some ""⟩

/-- A host document whose dialog container is absent while the trigger anchor
is present. -/
def docNoDialogContainer : Doc := ⟨true, none⟩

/-- A host document with a visible dialog whose submit button is disabled. -/
def docDisabledSubmit : Doc := ⟨true, some ⟨true, false, none, some ⟨true⟩⟩⟩

/-- A host document with a visible dialog whose submit button is enabled; the
dialog never closes. -/
def docStaysOpen : Doc := ⟨true, some ⟨true, false, none, some ⟨false⟩⟩⟩

/-! ## Theorems -/

/-- Claim C2: `fillRowInputs` is non-destructive — an input holding a
non-empty (after trimming) value is returned unchanged whatever the data
source supplied, an input is rewritten only when its trimmed value was empty,
and the rest of the row is untouched. -/
theorem claim2_fillRowInputs_nondestructive :
    ∀ (row : Row) (td : TimeData),
      ((fillRowInputs row td).1).dateInfo = row.dateInfo ∧
      (isInputFilled row.checkinInput = true →
        ((fillRowInputs row td).1).checkinInput = row.checkinInput) ∧
      (isInputFilled row.checkoutInput = true →
        ((fillRowInputs row td).1).checkoutInput = row.checkoutInput) ∧
      (((fillRowInputs row td).1).checkinInput ≠ row.checkinInput →
        isInputFilled row.checkinInput = false) ∧
      (((fillRowInputs row td).1).checkoutInput ≠ row.checkoutInput →
        isInputFilled row.checkoutInput = false) := by
  intro row td
  rcases row with ⟨di, ci, co⟩
  cases ci with
  | none => simp [fillRowInputs, isInputFilled]
  | some ci =>
    cases co with
    | none => simp [fillRowInputs, isInputFilled]
    | some co =>
      by_cases hci : isInputFilled (some ci) = true <;>
        by_cases hco : isInputFilled (some co) = true <;>
        simp_all [fillRowInputs]

/-- Witness for claim C2: a row with a filled check-in and an empty check-out
keeps its check-in and only the check-out is written. -/
theorem claim2_witness :
    isInputFilled (Row.mk none (some "07:15") (some "")).checkinInput = true ∧
    ((fillRowInputs ⟨none, some "07:15", some ""⟩ ⟨"09:00", "18:00"⟩).1).checkinInput
      = some "07:15" ∧
    ((fillRowInputs ⟨none, some "07:15", some ""⟩ ⟨"09:00", "18:00"⟩).1).checkoutInput
      = some "18:00" :=
  ⟨by decide,
   (claim2_fillRowInputs_nondestructive ⟨none, some "07:15", some ""⟩
      ⟨"09:00", "18:00"⟩).2.1 (by decide),
   by decide⟩

/-- Claim C5: with humanize on, `getTimeData` returns, for each endpoint
independently, the originally configured base time plus an integer offset in
`[-20, 20]` determined by the random draw of that endpoint, clamped into
`[00:00, 23:59]` total minutes — recomputed from the configured time, so
offsets cannot compound across calls. -/
theorem claim5_humanized_jitter_clamped :
    ∀ (p : ConstantDataProvider) (randIn randOut hIn mIn hOut mOut : Nat),
      p.humanize = true → randIn ≤ 40 → randOut ≤ 40 →
      parseHM p.checkinTime = some (hIn, mIn) →
      parseHM p.checkoutTime = some (hOut, mOut) →
      ∃ offIn offOut : Int,
        offIn = (randIn : Int) - 20 ∧ offOut = (randOut : Int) - 20 ∧
        -20 ≤ offIn ∧ offIn ≤ 20 ∧ -20 ≤ offOut ∧ offOut ≤ 20 ∧
        p.getTimeData randIn randOut =
          some ⟨formatHM (max 0 (min 1439 ((hIn * 60 + mIn : Int) + offIn))).toNat,
                formatHM (max 0 (min 1439 ((hOut * 60 + mOut : Int) + offOut))).toNat⟩ := by
  intro p rIn rOut hIn mIn hOut mOut hum hr1 hr2 hci hco
  refine ⟨(rIn : Int) - 20, (rOut : Int) - 20, rfl, rfl,
    by omega, by omega, by omega, by omega, ?_⟩
  simp [ConstantDataProvider.getTimeData, addRandomVariation, hum, hci, hco]

/-- Witness for claim C5 at configured times 09:00 and 18:00 with extreme
draws 0 and 40. -/
theorem claim5_witness :
    ∃ offIn offOut : Int,
      offIn = (0 : Int) - 20 ∧ offOut = (40 : Int) - 20 ∧
      -20 ≤ offIn ∧ offIn ≤ 20 ∧ -20 ≤ offOut ∧ offOut ≤ 20 ∧
      (ConstantDataProvider.mk "09:00" "18:00" true).getTimeData 0 40 =
        some ⟨formatHM (max 0 (min 1439 ((9 * 60 + 0 : Int) + offIn))).toNat,
              formatHM (max 0 (min 1439 ((18 * 60 + 0 : Int) + offOut))).toNat⟩ :=
  claim5_humanized_jitter_clamped ⟨"09:00", "18:00", true⟩ 0 40 9 0 18 0
    rfl (by decide) (by decide) (by decide) (by decide)

/-- Claim C10: `utils.humanizeTime` applies the offset with NO clamping — the
returned string encodes exactly base plus an offset in `[-20, 20]` — so near
midnight it can produce strings that are not valid zero-padded times: base
23:50 can yield "24:05" and base 00:10 can yield the negative-hour string
"-1:-10"; the clamping provider `addRandomVariation` differs on the same
inputs. -/
theorem claim10_humanizeTime_unclamped :
    (∀ (base : String) (rand h m : Nat), rand ≤ 40 → parseHM base = some (h, m) →
      ∃ off : Int, off = (rand : Int) - 20 ∧ -20 ≤ off ∧ off ≤ 20 ∧
        humanizeTime base rand =
          some (padStart2 (toString (Int.fdiv ((h * 60 + m : Int) + off) 60)) ++ ":" ++
                padStart2 (toString (Int.tmod ((h * 60 + m : Int) + off) 60)))) ∧
    humanizeTime "23:50" 35 = some "24:05" ∧
    isValidTimeFormat "24:05" = false ∧
    humanizeTime "00:10" 0 = some "-1:-10" ∧
    isValidTimeFormat "-1:-10" = false ∧
    addRandomVariation "23:50" 35 = some "23:59" ∧
    addRandomVariation "00:10" 0 = some "00:00" := by
  refine ⟨?_, by decide, by decide, by decide, by decide, by decide, by decide⟩
  intro base rand h m hr hp
  exact ⟨(rand : Int) - 20, rfl, by omega, by omega, by simp [humanizeTime, hp]⟩

/-- Witness for claim C10 instantiating the general offset description at base
23:50 and draw 35. -/
theorem claim10_witness :
    ∃ off : Int, off = (35 : Int) - 20 ∧ -20 ≤ off ∧ off ≤ 20 ∧
      humanizeTime "23:50" 35 =
        some (padStart2 (toString (Int.fdiv ((23 * 60 + 50 : Int) + off) 60)) ++ ":" ++
              padStart2 (toString (Int.tmod ((23 * 60 + 50 : Int) + off) 60))) :=
  claim10_humanizeTime_unclamped.1 "23:50" 35 23 50 (by decide) (by decide)

/-- Against a stream of documents none of which is ready, the polling loop
consumes all its fuel, one sleep per failing attempt. -/
theorem waitForDialogGo_fail (docAt : Nat → Doc) (delayMs : Nat)
    (hfail : ∀ n, dialogReady (docAt n) = false) :
    ∀ (fuel attempt slept : Nat),
      waitForDialogGo docAt delayMs fuel attempt slept =
        ⟨false, attempt + fuel - 1, slept + fuel * delayMs⟩ := by
  intro fuel
  induction fuel with
  | zero => intro attempt slept; simp [waitForDialogGo]
  | succ fuel ih =>
      intro attempt slept
      simp only [waitForDialogGo, hfail, Bool.false_eq_true, if_false]
      rw [ih (attempt + 1) (slept + delayMs)]
      have h2 : attempt + 1 + fuel - 1 = attempt + (fuel + 1) - 1 := by omega
      have h3 : slept + delayMs + fuel * delayMs = slept + (fuel + 1) * delayMs := by
        ring
      rw [h2, h3]

/-- Claim C6: against a document in which some readiness check always fails,
`waitForDialog` performs exactly `maxRetries` attempts, returns a not-ready
failure, and sleeps exactly `maxRetries * delayMs` milliseconds in total — it
neither hangs nor makes an extra attempt. -/
theorem claim6_waitForDialog_termination :
    ∀ (docAt : Nat → Doc) (maxRetries delayMs : Nat),
      1 ≤ maxRetries →
      (∀ n, dialogReady (docAt n) = false) →
      waitForDialog docAt maxRetries delayMs =
        ⟨false, maxRetries, maxRetries * delayMs⟩ := by
  intro docAt maxRetries delayMs h1 hfail
  unfold waitForDialog
  rw [waitForDialogGo_fail docAt delayMs hfail maxRetries 1 0]
  simp only [WaitOutcome.mk.injEq]
  exact ⟨trivial, by omega, by simp⟩

/-- Witness for claim C6: five attempts at 10 ms against a document with no
dialog container end not-ready after exactly 5 attempts and 50 ms of sleep,
hence at least the 40 ms of the spec scenario. -/
theorem claim6_witness :
    1 ≤ 5 ∧ (∀ n : Nat, dialogReady ((fun _ => Doc.mk true none) n) = false) ∧
    waitForDialog (fun _ => Doc.mk true none) 5 10 = ⟨false, 5, 50⟩ ∧
    40 ≤ 50 :=
  ⟨by decide, fun _ => rfl,
   claim6_waitForDialog_termination (fun _ => Doc.mk true none) 5 10 (by decide)
     (fun _ => rfl),
   by decide⟩

/-- Against a stream of documents in which the dialog never closes, the
close-confirmation loop exhausts its fuel and reports failure. -/
theorem waitForDialogCloseGo_fail (docAt : Nat → Doc)
    (hopen : ∀ n, dialogClosed (docAt n) = false) :
    ∀ fuel attempt, waitForDialogCloseGo docAt fuel attempt = false := by
  intro fuel
  induction fuel with
  | zero => intro attempt; rfl
  | succ fuel ih =>
      intro attempt
      simp only [waitForDialogCloseGo, hopen, Bool.false_eq_true, if_false]
      exact ih (attempt + 1)

/-- Claim C7: with the submit control present, a disabled control makes
`submitForm` fail with the disabled message without clicking; an enabled
control that is clicked while the dialog stays visible through every
close-confirmation attempt yields success with a warning, not a failure. -/
theorem claim7_submitForm_contract :
    ∀ (doc : Doc) (dlg : Dialog) (btn : SubmitButton) (docAt : Nat → Doc)
      (maxRetries : Nat),
      doc.dialog = some dlg → dlg.submitButton = some btn →
      (btn.disabled = true →
        submitForm doc docAt maxRetries =
          ⟨false, some "Submit button is disabled", none, false⟩) ∧
      (btn.disabled = false → (∀ n, dialogClosed (docAt n) = false) →
        submitForm doc docAt maxRetries =
          ⟨true, none, some "Dialog did not close automatically", true⟩) := by
  intro doc dlg btn docAt maxRetries hd hb
  constructor
  · intro hdis
    simp [submitForm, hd, hb, hdis]
  · intro hdis hopen
    simp [submitForm, hd, hb, hdis, waitForDialogClose,
      waitForDialogCloseGo_fail docAt hopen]

/-- Witness for claim C7: a disabled submit button, and an enabled one whose
dialog never closes. -/
theorem claim7_witness :
    submitForm docDisabledSubmit (fun _ => docDisabledSubmit) 15 =
      ⟨false, some "Submit button is disabled", none, false⟩ ∧
    (∀ n : Nat, dialogClosed ((fun _ => docStaysOpen) n) = false) ∧
    submitForm docStaysOpen (fun _ => docStaysOpen) 15 =
      ⟨true, none, some "Dialog did not close automatically", true⟩ :=
  ⟨(claim7_submitForm_contract docDisabledSubmit _ _ (fun _ => docDisabledSubmit) 15
      rfl rfl).1 rfl,
   fun _ => rfl,
   (claim7_submitForm_contract docStaysOpen _ _ (fun _ => docStaysOpen) 15
      rfl rfl).2 rfl (fun _ => rfl)⟩

/-- Claim C8, counterexample: with the dialog container `#freeReporting-dialog`
absent from the host document but the trigger anchor present, `openDialog`
SUCCEEDS and clicks the host document — it does not return a not-found
failure, because it only ever consults the trigger element. -/
theorem claim8_counterexample :
    docNoDialogContainer.dialog = none ∧
    openDialog docNoDialogContainer = ⟨true, none, true⟩ :=
  ⟨rfl, rfl⟩

/-- Claim C8 as amended: when the TRIGGER element
`a.export.free-reporting.popup-container` is absent from the host document,
`openDialog` returns a structural not-found failure without clicking anything,
and the orchestrator performs zero readiness-polling attempts. -/
theorem claim8_open_failure_before_polling :
    ∀ (doc : Doc) (docAt : Nat → Doc) (maxRetries delayMs : Nat),
      doc.trigger = false →
      openDialog doc = ⟨false, some "Dialog trigger element not found", false⟩ ∧
      openAndWait doc docAt maxRetries delayMs = (false, false, 0) := by
  intro doc docAt maxRetries delayMs h
  constructor
  · simp [openDialog, h]
  · simp [openAndWait, openDialog, h]

/-- Witness for claim C8 (amended) on a document with neither trigger nor
dialog. -/
theorem claim8_witness :
    openDialog ⟨false, none⟩ =
      ⟨false, some "Dialog trigger element not found", false⟩ ∧
    openAndWait ⟨false, none⟩ (fun _ => ⟨false, none⟩) 10 250 = (false, false, 0) :=
  claim8_open_failure_before_polling ⟨false, none⟩ (fun _ => ⟨false, none⟩) 10 250 rfl

/-- Substring containment is monotone: if `p` occurs inside `q` and `q` occurs
inside `s`, then `p` occurs inside `s`. -/
theorem strIncludes_mono {s p q : String} (hpq : p.data <:+: q.data)
    (h : strIncludes s q = true) : strIncludes s p = true := by
  unfold strIncludes at h ⊢
  exact decide_eq_true (hpq.trans (of_decide_eq_true h))

/-- A special-day text containing the holiday-eve token also contains the bare
eve token, which is its prefix. -/
theorem includes_erev_of_includes_erev_chag {s : String}
    (h : strIncludes s "ערב חג" = true) : strIncludes s "ערב" = true :=
  strIncludes_mono (by decide) h

/-- Claim C3: classification is total with exactly one outcome — the inductive
`classify` agrees with the source `shouldSkipDate` reason (with Work as the
default) and with the spec-side ordered first-match rule list — and a
special-day text containing the holiday-eve token is never classified
Holiday; away from the weekend branch it is classified Holiday Eve. -/
theorem claim3_classification_total_ordered :
    ∀ (rules : List (String × String)) (d : DateInfo),
      shouldSkipDate rules d = (classify rules d).reason ∧
      classify rules d = classifySpec rules d ∧
      (strIncludes d.specialText "ערב חג" = true →
        classify rules d ≠ RowClass.holiday) ∧
      (d.hebrewDay ≠ "ו" → d.hebrewDay ≠ "ש" →
        strIncludes d.specialText "ערב חג" = true →
        classify rules d = RowClass.holidayEve) := by
  intro rules d
  refine ⟨?_, ?_, ?_, ?_⟩
  · unfold shouldSkipDate classify
    by_cases hw : (d.hebrewDay == "ו" || d.hebrewDay == "ש") = true
    · simp [hw, RowClass.reason]
    · by_cases hh : (strIncludes d.specialText "חג" &&
          !strIncludes d.specialText "ערב") = true
      · simp [hw, hh, RowClass.reason]
      · by_cases he : strIncludes d.specialText "ערב חג" = true
        · simp [hw, hh, he, RowClass.reason]
        · cases hl : lookupRule rules d.missingEventValue <;>
            simp [hw, hh, he, hl, RowClass.reason]
  · simp only [classify, classifySpec, specRuleList, firstMatch]
    cases hl : lookupRule rules d.missingEventValue <;>
      split_ifs <;> simp_all
  · intro he
    have herev := includes_erev_of_includes_erev_chag he
    unfold classify
    by_cases hw : (d.hebrewDay == "ו" || d.hebrewDay == "ש") = true
    · simp [hw]
    · have hh : (strIncludes d.specialText "חג" &&
          !strIncludes d.specialText "ערב") = false := by
        simp [herev]
      cases hl : lookupRule rules d.missingEventValue <;>
        simp [hw, hh, he, hl]
  · intro hv hs he
    have herev := includes_erev_of_includes_erev_chag he
    have hw : (d.hebrewDay == "ו" || d.hebrewDay == "ש") = false := by
      simp [hv, hs]
    have hh : (strIncludes d.specialText "חג" &&
        !strIncludes d.specialText "ערב") = false := by
      simp [herev]
    simp [classify, hw, hh, he]

/-- Witness for claim C3: a Wednesday row whose annotation contains both the
holiday and the holiday-eve token classifies as Holiday Eve, with the
source-level skip reason string, consistently with the ordered rule list. -/
theorem claim3_witness :
    shouldSkipDate [] ⟨"01/10/2025", "ד", "ערב חג סוכות", "0"⟩ =
      (classify [] ⟨"01/10/2025", "ד", "ערב חג סוכות", "0"⟩).reason ∧
    classify [] ⟨"01/10/2025", "ד", "ערב חג סוכות", "0"⟩ =
      classifySpec [] ⟨"01/10/2025", "ד", "ערב חג סוכות", "0"⟩ ∧
    classify [] ⟨"01/10/2025", "ד", "ערב חג סוכות", "0"⟩ = RowClass.holidayEve := by
  have h := claim3_classification_total_ordered [] ⟨"01/10/2025", "ד", "ערב חג סוכות", "0"⟩
  exact ⟨h.1, h.2.1, h.2.2.2 (by decide) (by decide) (by decide)⟩

/-- Every iterated row increments exactly one of the three counters, so the
counters of the row loop partition the row list. -/
theorem fillRows_counts_length (rules : List (String × String))
    (dp : String → Option TimeData) :
    ∀ rows : List Row,
      (fillRows rules dp rows).2.filled + (fillRows rules dp rows).2.skipped +
        (fillRows rules dp rows).2.errors = rows.length := by
  intro rows
  induction rows with
  | nil => rfl
  | cons r rs ih =>
      simp only [fillRows]
      cases (processRow rules dp r).2 <;>
        simp only [FillDetails.add, List.length_cons] <;> omega

/-- Claim C4: `fillTimeInputs` returns `success = false` exactly when a
structural element is missing — the dialog container or the hours-report
table — and otherwise returns `success = true` with the details aggregated by
the row loop over ALL data rows, so no per-row failure ever aborts the pass
or flips its success flag. -/
theorem claim4_error_propagation :
    ∀ (rules : List (String × String)) (dp : String → Option TimeData) (doc : Doc),
      ((fillTimeInputs rules dp doc).2.success = false ↔
        doc.dialog = none ∨
          ∃ dlg, doc.dialog = some dlg ∧ dlg.queryHoursReport = none) ∧
      (∀ dlg hr, doc.dialog = some dlg → dlg.queryHoursReport = some hr →
        (fillTimeInputs rules dp doc).2 =
          ⟨true, none, some (fillRows rules dp hr.dataRows).2⟩) := by
  intro rules dp doc
  constructor
  · rcases doc with ⟨trig, dlg⟩
    cases dlg with
    | none => simp [fillTimeInputs]
    | some dlg =>
        rcases dlg with ⟨sb, cd, av, btn⟩
        cases av with
        | none => simp [fillTimeInputs, Dialog.queryHoursReport]
        | some av =>
            rcases av with ⟨avs, avc, hr⟩
            cases hr with
            | none => simp [fillTimeInputs, Dialog.queryHoursReport]
            | some hr => simp [fillTimeInputs, Dialog.queryHoursReport]
  · intro dlg hr h1 h2
    rcases doc with ⟨trig, dl⟩
    subst h1
    rcases dlg with ⟨sb, cd, av, btn⟩
    simp only [Dialog.queryHoursReport] at h2
    cases av with
    | none => simp at h2
    | some av =>
        rcases av with ⟨avs, avc, hros⟩
        simp only [Option.bind] at h2
        cases hros with
        | none => simp at h2
        | some hros =>
            simp only [Option.some.injEq] at h2
            subst h2
            simp [fillTimeInputs]

/-- Witness for claim C4: a document with a well-formed dialog containing one
empty row yields success with details from the row loop. -/
theorem claim4_witness :
    (fillTimeInputs [] constProvider
        ⟨true, some ⟨true, false, some ⟨false, false, some ⟨[modernEmptyRow]⟩⟩,
          some ⟨false⟩⟩⟩).2 =
      ⟨true, none, some (fillRows [] constProvider [modernEmptyRow]).2⟩ :=
  (claim4_error_propagation [] constProvider
      ⟨true, some ⟨true, false, some ⟨false, false, some ⟨[modernEmptyRow]⟩⟩,
        some ⟨false⟩⟩⟩).2
    ⟨true, false, some ⟨false, false, some ⟨[modernEmptyRow]⟩⟩, some ⟨false⟩⟩
    ⟨[modernEmptyRow]⟩ rfl rfl

/-- Claim C9: on a structurally complete document the details object of the
modular `fillTimeInputs` is always present with all three counters, and they
partition the iterated data rows: filled + skipped + errors equals the number
of data rows. -/
theorem claim9_counter_partition :
    ∀ (rules : List (String × String)) (dp : String → Option TimeData)
      (doc : Doc) (dlg : Dialog) (av : AttendanceView) (hr : HoursReport),
      doc.dialog = some dlg → dlg.attendanceView = some av →
      av.hoursReport = some hr →
      ∃ d : FillDetails,
        (fillTimeInputs rules dp doc).2.details = some d ∧
        d.filled + d.skipped + d.errors = hr.dataRows.length := by
  intro rules dp doc dlg av hr h1 h2 h3
  refine ⟨(fillRows rules dp hr.dataRows).2, ?_,
    fillRows_counts_length rules dp hr.dataRows⟩
  rcases doc with ⟨trig, dl⟩
  subst h1
  rcases dlg with ⟨sb, cd, avv, btn⟩
  simp only at h2
  subst h2
  rcases av with ⟨avs, avc, hros⟩
  simp only at h3
  subst h3
  simp [fillTimeInputs]

/-- Witness for claim C9 on a one-complete-row document: the counters sum to
one. -/
theorem claim9_witness :
    ∃ d : FillDetails,
      (fillTimeInputs [] constProvider
          ⟨true, some ⟨true, false, some ⟨false, false, some ⟨[modernCompleteRow]⟩⟩,
            some ⟨false⟩⟩⟩).2.details = some d ∧
      d.filled + d.skipped + d.errors = [modernCompleteRow].length :=
  claim9_counter_partition [] constProvider
    ⟨true, some ⟨true, false, some ⟨false, false, some ⟨[modernCompleteRow]⟩⟩,
      some ⟨false⟩⟩⟩
    ⟨true, false, some ⟨false, false, some ⟨[modernCompleteRow]⟩⟩, some ⟨false⟩⟩
    ⟨false, false, some ⟨[modernCompleteRow]⟩⟩ ⟨[modernCompleteRow]⟩ rfl rfl rfl

/-- A failing `fillRowInputs` leaves the row untouched. -/
theorem fillRowInputs_failed_id (row : Row) (td : TimeData)
    (h : (fillRowInputs row td).2 = false) : (fillRowInputs row td).1 = row := by
  rcases row with ⟨di, ci, co⟩
  cases ci <;> cases co <;> simp_all [fillRowInputs]

/-- A successful `fillRowInputs` with non-empty provided values yields a
complete row. -/
theorem fillRowInputs_success_complete (row : Row) (td : TimeData)
    (hci : isInputFilled (some td.checkin) = true)
    (hco : isInputFilled (some td.checkout) = true)
    (h : (fillRowInputs row td).2 = true) :
    isRowComplete (fillRowInputs row td).1 = true := by
  rcases row with ⟨di, ci, co⟩
  cases ci with
  | none => simp [fillRowInputs] at h
  | some ci =>
      cases co with
      | none => simp [fillRowInputs] at h
      | some co =>
          by_cases h1 : isInputFilled (some ci) = true <;>
            by_cases h2 : isInputFilled (some co) = true <;>
            simp_all [fillRowInputs, isRowComplete]

/-- An already complete row is counted skipped and left untouched by the
modular row loop, whatever the data source would have returned. -/
theorem processRow_of_complete (rules : List (String × String))
    (dp : String → Option TimeData) (row : Row)
    (h : isRowComplete row = true) :
    processRow rules dp row = (row, RowOutcome.skipped) := by
  unfold processRow
  cases hd : row.dateInfo with
  | none => rfl
  | some info =>
      by_cases hs : (shouldSkipDate rules info).isSome = true
      · simp [hs]
      · simp [hs, h]

/-- With a data source that provides only non-empty values, a row the loop
reports as filled ends up complete. -/
theorem processRow_filled_complete (rules : List (String × String))
    (dp : String → Option TimeData) (hdp : providesNonEmpty dp) (row row' : Row)
    (h : processRow rules dp row = (row', RowOutcome.filled)) :
    isRowComplete row' = true := by
  unfold processRow at h
  cases hd : row.dateInfo with
  | none => rw [hd] at h; simp at h
  | some info =>
      rw [hd] at h
      by_cases hs : (shouldSkipDate rules info).isSome = true
      · simp [hs] at h
      · by_cases hc : isRowComplete row = true
        · simp [hs, hc] at h
        · cases hdt : dp info.date with
          | none => simp [hs, hc, hdt] at h
          | some td =>
              simp only [hs, hc, hdt, if_neg, Prod.mk.injEq] at h
              rcases hdp info.date td hdt with ⟨hci, hco⟩
              cases hb : (fillRowInputs row td).2 with
              | false => simp_all
              | true =>
                  have := fillRowInputs_success_complete row td hci hco hb
                  simp_all

/-- A row the loop does not report as filled is left untouched. -/
theorem processRow_not_filled_id (rules : List (String × String))
    (dp : String → Option TimeData) (row : Row)
    (h : (processRow rules dp row).2 ≠ RowOutcome.filled) :
    (processRow rules dp row).1 = row := by
  unfold processRow at h ⊢
  cases hd : row.dateInfo with
  | none => rfl
  | some info =>
      rw [hd] at h
      by_cases hs : (shouldSkipDate rules info).isSome = true
      · simp [hs]
      · by_cases hc : isRowComplete row = true
        · simp [hs, hc]
        · cases hdt : dp info.date with
          | none => simp [hs, hc, hdt]
          | some td =>
              simp only [hs, hc, hdt, if_neg] at h ⊢
              cases hb : (fillRowInputs row td).2 with
              | true => simp_all
              | false => simpa using fillRowInputs_failed_id row td hb

/-- Applying the row loop body to its own output changes nothing and never
reports filled. -/
theorem processRow_second (rules : List (String × String))
    (dp : String → Option TimeData) (hdp : providesNonEmpty dp) (row : Row) :
    (processRow rules dp (processRow rules dp row).1).1 =
      (processRow rules dp row).1 ∧
    (processRow rules dp (processRow rules dp row).1).2 ≠ RowOutcome.filled := by
  by_cases hf : (processRow rules dp row).2 = RowOutcome.filled
  · have hpair : processRow rules dp row =
        ((processRow rules dp row).1, RowOutcome.filled) := by
      rw [← hf]
    have hcomp : isRowComplete (processRow rules dp row).1 = true :=
      processRow_filled_complete rules dp hdp row _ hpair
    rw [processRow_of_complete rules dp _ hcomp]
    exact ⟨rfl, by simp⟩
  · have hid := processRow_not_filled_id rules dp row hf
    rw [hid]
    exact ⟨hid, hf⟩

/-- Second pass of the modular row loop over its own output: the rows are
unchanged and the filled counter is zero. -/
theorem fillRows_second_pass (rules : List (String × String))
    (dp : String → Option TimeData) (hdp : providesNonEmpty dp) :
    ∀ rows : List Row,
      (fillRows rules dp (fillRows rules dp rows).1).1 =
        (fillRows rules dp rows).1 ∧
      (fillRows rules dp (fillRows rules dp rows).1).2.filled = 0 := by
  intro rows
  induction rows with
  | nil => exact ⟨rfl, rfl⟩
  | cons r rs ih =>
      have hr2 := processRow_second rules dp hdp r
      simp only [fillRows]
      constructor
      · simp only [List.cons.injEq]
        exact ⟨hr2.1, ih.1⟩
      · cases ho : (processRow rules dp (processRow rules dp r).1).2 with
        | filled => exact absurd ho hr2.2
        | skipped => simp [FillDetails.add, ho, ih.2]
        | errored => simp [FillDetails.add, ho, ih.2]

/-- Claim C1 (the modular loop obeys it, the legacy loop does not): an already
complete row is always counted skipped and never written; with a data source
providing non-empty values, a second pass over the output of a first pass
rewrites nothing and fills zero rows.  In the legacy monolithic variant the
already-complete branch increments the undeclared `alreadyFilledCount`, so the
same complete Monday row lands in the error counter, not the skipped counter,
while the modular loop counts it skipped. -/
theorem claim1_fill_idempotence :
    (∀ (rules : List (String × String)) (dp : String → Option TimeData)
        (row : Row), isRowComplete row = true →
      processRow rules dp row = (row, RowOutcome.skipped)) ∧
    (∀ (rules : List (String × String)) (dp : String → Option TimeData)
        (rows : List Row), providesNonEmpty dp →
      (fillRows rules dp (fillRows rules dp rows).1).1 =
        (fillRows rules dp rows).1 ∧
      (fillRows rules dp (fillRows rules dp rows).1).2.filled = 0) ∧
    Legacy.fillRows constProvider [legacyCompleteRow] =
      ([legacyCompleteRow], ⟨0, 0, 1⟩) ∧
    fillRows [] constProvider [modernCompleteRow] =
      ([modernCompleteRow], ⟨0, 1, 0⟩) :=
  ⟨processRow_of_complete,
   fun rules dp rows hdp => fillRows_second_pass rules dp hdp rows,
   by decide, by decide⟩

/-- Witness for claim C1: the concrete complete Monday row is skipped by the
modular loop, and a second pass over a one-empty-row sheet fills nothing. -/
theorem claim1_witness :
    isRowComplete modernCompleteRow = true ∧
    processRow [] constProvider modernCompleteRow =
      (modernCompleteRow, RowOutcome.skipped) ∧
    providesNonEmpty constProvider ∧
    (fillRows [] constProvider
        (fillRows [] constProvider [modernEmptyRow]).1).2.filled = 0 := by
  have hdp : providesNonEmpty constProvider := by
    intro d td h
    cases h
    exact ⟨by decide, by decide⟩
  exact ⟨by decide,
    claim1_fill_idempotence.1 [] constProvider modernCompleteRow (by decide),
    hdp,
    (claim1_fill_idempotence.2.1 [] constProvider [modernEmptyRow] hdp).2⟩

end Meckano
